import Mathlib

/-!
# Assessment & Progress Engine — shallow embedding

A shallow embedding of the assessment/progress engine of the e-learning
backend: the attempt ledger (`createTestAttempt`), the grader and submit
orchestration (`submitTestAttempt`), and the lesson-completion cascade
(`markLessonComplete` / `updateCourseProgress`).

Database rows become Lean structures, the database becomes an explicit
`DB` record of row lists, and each TypeScript handler becomes a pure
function `... → DB → Except Err (row × DB)`.  A thrown error is
`Except.error`; since every handler performs its writes only after all of
its checks, an error leaves the state untouched, which the `...Run`
wrappers make explicit.  Timestamps are modelled as an abstract `Nat`
clock `DB.now` (all `new Date()` calls inside one handler yield the same
instant).  JavaScript numbers that carry scores/percentages are modelled
as `ℚ`; row ids, counts and points are `Nat`.

String normalization in the grader (`.trim().toLowerCase()`) is modelled
by `jsTrim` and `jsToLower` over the ASCII fragment that the data uses:
`jsTrim` strips the usual ASCII whitespace from both ends, `jsToLower`
maps `A`–`Z` to `a`–`z` and fixes every other character, as
`String.prototype.toLowerCase` does on ASCII input.

SQL `SELECT ... WHERE` with an equality condition becomes `List.find?` /
`List.filter`; an `UPDATE ... WHERE` becomes `List.map` guarded by the
same condition (it touches every matching row and no other); the inner
join in the completed-lesson count is modelled with `List.any` over the
lessons table, which agrees with the SQL join because `lessons.id` is a
primary key.
-/

/-- User roles, from the `user_role` enum in the schema. -/
inductive Role where
  | student
  | instructor
deriving DecidableEq, Repr

/-- Enrollment status, from the `enrollment_status` enum in the schema. -/
inductive EnrollStatus where
  | active
  | completed
  | dropped
deriving DecidableEq, Repr

/-- Error kinds thrown by the handlers (each `throw new Error(...)` site). -/
inductive Err where
  | NotFound
  | LimitExceeded
  | AlreadySubmitted
  | EmptyTest
deriving DecidableEq, Repr

/-- A row of `users`: only the fields the engine reads. -/
structure User where
  id : Nat
  role : Role
deriving DecidableEq, Repr

/-- A row of `tests`: only the fields the engine reads. -/
structure Test where
  id : Nat
  course_id : Nat
  max_attempts : Nat
  passing_score : ℚ
deriving DecidableEq, Repr

/-- A row of `questions`: only the fields the grader reads. -/
structure Question where
  id : Nat
  test_id : Nat
  correct_answer : String
  points : Nat
deriving DecidableEq, Repr

/-- The submitted answer map: JSON object keyed by question id rendered
as a decimal string.  First binding wins on duplicate keys, as for a JS
object literal read back by key. -/
abbrev AnswerMap := List (String × String)

/-- A row of `test_attempts`. -/
structure TestAttempt where
  id : Nat
  test_id : Nat
  student_id : Nat
  score : Option ℚ
  answers : AnswerMap
  started_at : Nat
  completed_at : Option Nat
  is_passed : Option Bool
deriving DecidableEq, Repr

/-- A row of `lessons`: only the fields the engine reads. -/
structure Lesson where
  id : Nat
  course_id : Nat
deriving DecidableEq, Repr

/-- A row of `lesson_progress`. -/
structure LessonProgress where
  id : Nat
  student_id : Nat
  lesson_id : Nat
  is_completed : Bool
  completed_at : Option Nat
deriving DecidableEq, Repr

/-- A row of `enrollments`: only the fields the cascade touches. -/
structure Enrollment where
  id : Nat
  student_id : Nat
  course_id : Nat
  status : EnrollStatus
  progress_percentage : ℚ
  completed_at : Option Nat
deriving DecidableEq, Repr

/-- The database state seen by the engine, plus the clock (`now`) and the
serial-id source (`nextId`). -/
structure DB where
  users : List User
  tests : List Test
  questions : List Question
  testAttempts : List TestAttempt
  lessons : List Lesson
  lessonProgress : List LessonProgress
  enrollments : List Enrollment
  now : Nat
  nextId : Nat
deriving DecidableEq, Repr

/-! ## String normalization used by the grader -/

/-- ASCII whitespace as trimmed by `String.prototype.trim`. -/
def isWs (c : Char) : Bool :=
  c == ' ' || c == '\t' || c == '\n' || c == '\r'

/-- `String.prototype.toLowerCase` on one ASCII character: `A`–`Z`
(codes 65–90) maps to `a`–`z` (codes 97–122); everything else is fixed. -/
def jsToLowerChar (c : Char) : Char :=
  if h : 65 ≤ c.toNat ∧ c.toNat ≤ 90 then
    ⟨⟨⟨c.toNat + 32, by omega⟩⟩, Or.inl (show c.toNat + 32 < 55296 by omega)⟩
  else c

/-- `String.prototype.toLowerCase` (ASCII fragment). -/
def jsToLower (s : String) : String :=
  ⟨s.data.map jsToLowerChar⟩

/-- `String.prototype.trim` on a character list: drop ASCII whitespace from
both ends. -/
def trimChars (l : List Char) : List Char :=
  ((l.dropWhile isWs).reverse.dropWhile isWs).reverse

/-- `String.prototype.trim` (ASCII whitespace). -/
def jsTrim (s : String) : String :=
  ⟨trimChars s.data⟩

/-- The grader's normal form of a string: `s.trim().toLowerCase()`. -/
def jsNormalize (s : String) : String :=
  jsToLower (jsTrim s)

/-! ## Grader (the scoring loop of `submitTestAttempt`) -/

/-- `input.answers[question.id.toString()]`: look the question up in the
submitted map by its id rendered as a string. -/
def lookupAnswer (am : AnswerMap) (q : Question) : Option String :=
  (am.find? (fun kv => kv.1 == toString q.id)).map (fun kv => kv.2)

/-- The credit test of the scoring loop:
`studentAnswer && studentAnswer.trim().toLowerCase() === question.correct_answer.trim().toLowerCase()`.
A missing key yields `undefined`, the empty string is falsy: both take
the falsy branch and earn nothing. -/
def questionCorrect (am : AnswerMap) (q : Question) : Bool :=
  match lookupAnswer am q with
  | none => false
  | some s => s ≠ "" && jsNormalize s == jsNormalize q.correct_answer

/-- `totalPoints` accumulated by the scoring loop. -/
def totalPoints (qs : List Question) : Nat :=
  (qs.map (fun q => q.points)).sum

/-- `earnedPoints` accumulated by the scoring loop. -/
def earnedPoints (qs : List Question) (am : AnswerMap) : Nat :=
  ((qs.filter (questionCorrect am)).map (fun q => q.points)).sum

/-- `const score = totalPoints > 0 ? (earnedPoints / totalPoints) * 100 : 0`. -/
def computeScore (qs : List Question) (am : AnswerMap) : ℚ :=
  if 0 < totalPoints qs then
    ((earnedPoints qs am : ℚ) / (totalPoints qs : ℚ)) * 100
  else 0

/-! ## AttemptLedger: `createTestAttempt` -/

/-- Count of `test_attempts` rows for a (test, student) pair. -/
def attemptsCount (tid sid : Nat) (db : DB) : Nat :=
  (db.testAttempts.filter (fun a => a.test_id == tid && a.student_id == sid)).length

/-- `createTestAttempt` (the `startAttempt` handler): verify the test,
verify the student (by id *and* `role = 'student'` in one query), check
the attempt count against `max_attempts`, then insert the fresh
in-progress attempt. -/
def createTestAttempt (tid sid : Nat) (db : DB) : Except Err (TestAttempt × DB) :=
  match db.tests.find? (fun t => t.id == tid) with
  | none => .error .NotFound
  | some test =>
    match db.users.find? (fun u => u.id == sid && u.role == Role.student) with
    | none => .error .NotFound
    | some _ =>
      if test.max_attempts ≤ attemptsCount tid sid db then
        .error .LimitExceeded
      else
        let a : TestAttempt :=
          { id := db.nextId, test_id := tid, student_id := sid, score := none,
            answers := [], started_at := db.now, completed_at := none, is_passed := none }
        .ok (a, { db with testAttempts := db.testAttempts ++ [a], nextId := db.nextId + 1 })

/-- State reached by `createTestAttempt`: the new state on success, the
old one on a thrown error (nothing was written before the throw). -/
def createRun (tid sid : Nat) (db : DB) : DB :=
  match createTestAttempt tid sid db with
  | .ok (_, db') => db'
  | .error _ => db

/-- A sequence of `startAttempt` calls, each given as (testId, studentId). -/
def runStarts (calls : List (Nat × Nat)) (db : DB) : DB :=
  match calls with
  | [] => db
  | c :: rest => runStarts rest (createRun c.1 c.2 db)

/-! ## AttemptService: `submitTestAttempt` -/

/-- `submitTestAttempt`: load the attempt, reject a second submission,
load the test, load the question set, grade, and persist the terminal
state.  The `UPDATE ... WHERE id = attempt_id` writes every row with
that id; the returned row is the first one. -/
def submitTestAttempt (aid : Nat) (am : AnswerMap) (db : DB) : Except Err (TestAttempt × DB) :=
  match db.testAttempts.find? (fun a => a.id == aid) with
  | none => .error .NotFound
  | some attempt =>
    if attempt.completed_at.isSome then .error .AlreadySubmitted
    else
      match db.tests.find? (fun t => t.id == attempt.test_id) with
      | none => .error .NotFound
      | some test =>
        let qs := db.questions.filter (fun q => q.test_id == attempt.test_id)
        if qs.isEmpty then .error .EmptyTest
        else
          let score := computeScore qs am
          let isPassed : Bool := decide (test.passing_score ≤ score)
          let upd : TestAttempt → TestAttempt := fun a =>
            { a with answers := am, score := some score,
                     completed_at := some db.now, is_passed := some isPassed }
          .ok (upd attempt,
               { db with testAttempts :=
                   db.testAttempts.map (fun a => if a.id == aid then upd a else a) })

/-- State reached by `submitTestAttempt` (old state on a thrown error). -/
def submitRun (aid : Nat) (am : AnswerMap) (db : DB) : DB :=
  match submitTestAttempt aid am db with
  | .ok (_, db') => db'
  | .error _ => db

/-! ## ProgressCascade: `markLessonComplete` / `updateCourseProgress` -/

/-- Total lessons of a course (`count(*)` over `lessons`). -/
def totalLessonCount (lessons : List Lesson) (cid : Nat) : Nat :=
  (lessons.filter (fun l => l.course_id == cid)).length

/-- Completed lessons of a student in a course: `lesson_progress` rows
with `is_completed` joined to `lessons` on `lesson_id`, restricted to
the course.  `lessons.id` is a primary key, so the join is the `any`. -/
def completedLessonCount (progress : List LessonProgress) (lessons : List Lesson)
    (sid cid : Nat) : Nat :=
  (progress.filter (fun p =>
    p.student_id == sid && p.is_completed &&
      lessons.any (fun l => l.id == p.lesson_id && l.course_id == cid))).length

/-- `const progressPercentage = totalLessons > 0 ? (completedLessons / totalLessons) * 100 : 0`. -/
def cascadePct (progress : List LessonProgress) (lessons : List Lesson)
    (sid cid : Nat) : ℚ :=
  if 0 < totalLessonCount lessons cid then
    ((completedLessonCount progress lessons sid cid : ℚ) /
      (totalLessonCount lessons cid : ℚ)) * 100
  else 0

/-- The enrollment write of `updateCourseProgress`: set
`progress_percentage`, and, exactly when the recomputed percentage is
100, also `completed_at` and `status = 'completed'`.  The `UPDATE`'s
`WHERE` clause touches every row of the (student, course) pair and
nothing else; zero matching rows is not an error. -/
def applyEnrollUpdate (sid cid : Nat) (pct : ℚ) (now : Nat) (e : Enrollment) : Enrollment :=
  if e.student_id == sid && e.course_id == cid then
    if pct = 100 then
      { e with progress_percentage := pct, status := .completed, completed_at := some now }
    else
      { e with progress_percentage := pct }
  else e

/-- `updateCourseProgress`: resolve the lesson's course, recount, and
rewrite the enrollment rows of the (student, course) pair. -/
def updateCourseProgress (sid lid : Nat) (db : DB) : Except Err DB :=
  match db.lessons.find? (fun l => l.id == lid) with
  | none => .error .NotFound
  | some lesson =>
    let pct := cascadePct db.lessonProgress db.lessons sid lesson.course_id
    .ok { db with enrollments :=
            db.enrollments.map (applyEnrollUpdate sid lesson.course_id pct db.now) }

/-- The upsert step of `markLessonComplete`: update every existing
(student, lesson) row to completed, or insert a fresh completed row when
none exists.  Returns the row the handler returns (the first updated row,
or the inserted one) together with the new state. -/
def upsertProgress (sid lid : Nat) (db : DB) : LessonProgress × DB :=
  match db.lessonProgress.find? (fun p => p.student_id == sid && p.lesson_id == lid) with
  | some p =>
    ({ p with is_completed := true, completed_at := some db.now },
     { db with lessonProgress :=
         db.lessonProgress.map (fun q =>
           if q.student_id == sid && q.lesson_id == lid then
             { q with is_completed := true, completed_at := some db.now }
           else q) })
  | none =>
    let p : LessonProgress :=
      { id := db.nextId, student_id := sid, lesson_id := lid,
        is_completed := true, completed_at := some db.now }
    (p, { db with lessonProgress := db.lessonProgress ++ [p], nextId := db.nextId + 1 })

/-- `markLessonComplete` (the `completeLesson` handler): verify the
lesson, upsert the progress row, then run the cascade. -/
def markLessonComplete (sid lid : Nat) (db : DB) : Except Err (LessonProgress × DB) :=
  match db.lessons.find? (fun l => l.id == lid) with
  | none => .error .NotFound
  | some _ =>
    let r := upsertProgress sid lid db
    match updateCourseProgress sid lid r.2 with
    | .error e => .error e
    | .ok db2 => .ok (r.1, db2)

/-- State reached by `markLessonComplete` (old state on a thrown error). -/
def completeRun (sid lid : Nat) (db : DB) : DB :=
  match markLessonComplete sid lid db with
  | .ok (_, db') => db'
  | .error _ => db

/-- A sequence of `completeLesson` calls, each given as (studentId, lessonId). -/
def runCompletes (calls : List (Nat × Nat)) (db : DB) : DB :=
  match calls with
  | [] => db
  | c :: rest => runCompletes rest (completeRun c.1 c.2 db)

/-! ## Basic preservation lemmas -/

theorem upsertProgress_lessons (sid lid : Nat) (db : DB) :
    ((upsertProgress sid lid db).2).lessons = db.lessons := by
  unfold upsertProgress
  cases db.lessonProgress.find? (fun p => p.student_id == sid && p.lesson_id == lid) <;> rfl

theorem upsertProgress_enrollments (sid lid : Nat) (db : DB) :
    ((upsertProgress sid lid db).2).enrollments = db.enrollments := by
  unfold upsertProgress
  cases db.lessonProgress.find? (fun p => p.student_id == sid && p.lesson_id == lid) <;> rfl

theorem upsertProgress_now (sid lid : Nat) (db : DB) :
    ((upsertProgress sid lid db).2).now = db.now := by
  unfold upsertProgress
  cases db.lessonProgress.find? (fun p => p.student_id == sid && p.lesson_id == lid) <;> rfl

theorem applyEnrollUpdate_of_ne (sid cid : Nat) (pct : ℚ) (nw : Nat) (e : Enrollment)
    (h : ¬ (e.student_id = sid ∧ e.course_id = cid)) :
    applyEnrollUpdate sid cid pct nw e = e := by
  have hc : ¬ ((e.student_id == sid && e.course_id == cid) = true) := by
    simpa using h
  unfold applyEnrollUpdate
  rw [if_neg hc]

/-! ## C9: role gate on starting an attempt -/

/-- C9: `createTestAttempt` fails with `NotFound` whenever the given student id
does not refer to an existing user in the student role (in particular for an
instructor's id), and it creates nothing: the state is unchanged. -/
theorem start_requires_student_role (db : DB) (tid sid : Nat)
    (h : db.users.find? (fun u => u.id == sid && u.role == Role.student) = none) :
    createTestAttempt tid sid db = .error Err.NotFound ∧ createRun tid sid db = db := by
  have hmain : createTestAttempt tid sid db = .error Err.NotFound := by
    unfold createTestAttempt
    cases db.tests.find? (fun t => t.id == tid) with
    | none => rfl
    | some t => rw [h]
  exact ⟨hmain, by unfold createRun; rw [hmain]⟩

/-- A database whose only user is an instructor with id 7. -/
def dbC9 : DB :=
  { users := [{ id := 7, role := .instructor }],
    tests := [{ id := 1, course_id := 1, max_attempts := 3, passing_score := 70 }],
    questions := [], testAttempts := [], lessons := [], lessonProgress := [],
    enrollments := [], now := 0, nextId := 1 }

/-- Witness for C9: starting an attempt as the instructor (id 7) fails with
`NotFound` and leaves the database unchanged. -/
theorem start_requires_student_role_witness :
    dbC9.users.find? (fun u => u.id == 7 && u.role == Role.student) = none ∧
    (createTestAttempt 1 7 dbC9 = .error Err.NotFound ∧ createRun 1 7 dbC9 = dbC9) :=
  ⟨rfl, start_requires_student_role dbC9 1 7 rfl⟩

/-! ## C5: submission is single-shot -/

/-- C5: for every attempt whose `completed_at` is non-null, a further
`submitTestAttempt` call fails with `AlreadySubmitted` and leaves the stored
state (score, answers, is_passed, completed_at of every row) exactly as it
was: the state is unchanged on error. -/
theorem submit_single_shot (db : DB) (aid : Nat) (am : AnswerMap)
    (a : TestAttempt) (ts : Nat)
    (ha : db.testAttempts.find? (fun x => x.id == aid) = some a)
    (hc : a.completed_at = some ts) :
    submitTestAttempt aid am db = .error Err.AlreadySubmitted ∧
    submitRun aid am db = db := by
  have hmain : submitTestAttempt aid am db = .error Err.AlreadySubmitted := by
    unfold submitTestAttempt
    simp [ha, hc]
  exact ⟨hmain, by unfold submitRun; rw [hmain]⟩

/-- A completed attempt row (submitted at time 3 with a perfect score). -/
def attC5 : TestAttempt :=
  { id := 1, test_id := 1, student_id := 1, score := some 100,
    answers := [("1", "4")], started_at := 0, completed_at := some 3,
    is_passed := some true }

/-- A database holding the already-submitted attempt `attC5`. -/
def dbC5 : DB :=
  { users := [{ id := 1, role := .student }],
    tests := [{ id := 1, course_id := 1, max_attempts := 3, passing_score := 70 }],
    questions := [], testAttempts := [attC5], lessons := [], lessonProgress := [],
    enrollments := [], now := 9, nextId := 2 }

/-- Witness for C5: resubmitting the completed attempt 1 fails with
`AlreadySubmitted` and the database is unchanged. -/
theorem submit_single_shot_witness :
    dbC5.testAttempts.find? (fun x => x.id == 1) = some attC5 ∧
    attC5.completed_at = some 3 ∧
    (submitTestAttempt 1 [("1", "5")] dbC5 = .error Err.AlreadySubmitted ∧
      submitRun 1 [("1", "5")] dbC5 = dbC5) :=
  ⟨rfl, rfl, submit_single_shot dbC5 1 [("1", "5")] attC5 3 rfl rfl⟩

/-! ## C10: the empty submitted string never earns credit -/

/-- C10: a question whose submitted answer is the empty string earns no
credit — the empty string is falsy, so it is never compared against the
correct answer (even a correct answer that trims to the empty string). -/
theorem empty_answer_no_credit (am : AnswerMap) (q : Question)
    (h : lookupAnswer am q = some "") :
    questionCorrect am q = false := by
  unfold questionCorrect
  rw [h]
  simp

/-- A question whose correct answer trims to the empty string. -/
def qC10 : Question := { id := 1, test_id := 1, correct_answer := " ", points := 1 }

/-- Witness for C10: submitting `""` against a correct answer that itself
normalizes to `""` still earns no credit. -/
theorem empty_answer_no_credit_witness :
    lookupAnswer [("1", "")] qC10 = some "" ∧
    jsNormalize qC10.correct_answer = "" ∧
    questionCorrect [("1", "")] qC10 = false :=
  ⟨rfl, rfl, empty_answer_no_credit [("1", "")] qC10 rfl⟩

/-! ## C3: no enrollment check in the cascade -/

/-- A database with a one-lesson course and a student, but no enrollment. -/
def dbC3 : DB :=
  { users := [{ id := 1, role := .student }], tests := [], questions := [],
    testAttempts := [], lessons := [{ id := 1, course_id := 1 }],
    lessonProgress := [], enrollments := [], now := 0, nextId := 1 }

/-- Counterexample to C3 as stated: with no enrollment row at all,
`markLessonComplete` succeeds instead of failing with `NotFound`. -/
theorem complete_without_enrollment_cex :
    dbC3.enrollments = [] ∧ (markLessonComplete 1 1 dbC3).isOk = true :=
  ⟨rfl, rfl⟩

/-- C3 (amended): `markLessonComplete` performs no enrollment-existence
check: when the lesson exists but no enrollment row matches (student, course
of the lesson), the call succeeds and the enrollments table is unchanged
(the enrollment `UPDATE` matches zero rows). -/
theorem complete_without_enrollment (db : DB) (sid lid : Nat) (lesson : Lesson)
    (hl : db.lessons.find? (fun l => l.id == lid) = some lesson)
    (he : ∀ e ∈ db.enrollments, ¬ (e.student_id = sid ∧ e.course_id = lesson.course_id)) :
    ∃ lp db', markLessonComplete sid lid db = .ok (lp, db') ∧
      db'.enrollments = db.enrollments := by
  unfold markLessonComplete updateCourseProgress
  simp only [upsertProgress_lessons, hl]
  refine ⟨(upsertProgress sid lid db).1, _, rfl, ?_⟩
  show ((upsertProgress sid lid db).2).enrollments.map _ = db.enrollments
  rw [upsertProgress_enrollments]
  have h1 : db.enrollments.map
      (applyEnrollUpdate sid lesson.course_id
        (cascadePct ((upsertProgress sid lid db).2).lessonProgress
          db.lessons sid lesson.course_id)
        ((upsertProgress sid lid db).2).now) =
      db.enrollments.map id :=
    List.map_congr_left (fun e hme => applyEnrollUpdate_of_ne _ _ _ _ e (he e hme))
  simpa using h1

/-- Witness for C3 (amended): completing lesson 1 in `dbC3` (no enrollment)
succeeds with the enrollments table untouched. -/
theorem complete_without_enrollment_witness :
    dbC3.lessons.find? (fun l => l.id == 1) = some { id := 1, course_id := 1 } ∧
    ∃ lp db', markLessonComplete 1 1 dbC3 = .ok (lp, db') ∧
      db'.enrollments = dbC3.enrollments :=
  ⟨rfl, complete_without_enrollment dbC3 1 1 { id := 1, course_id := 1 } rfl
    (by intro e hme; simp [dbC3] at hme)⟩

/-! ## C4: which status transitions the cascade performs -/

/-- A database with a one-lesson course and a *dropped* enrollment. -/
def dbC4 : DB :=
  { users := [{ id := 1, role := .student }], tests := [], questions := [],
    testAttempts := [],
    lessons := [{ id := 1, course_id := 1 }],
    lessonProgress := [],
    enrollments := [{ id := 1, student_id := 1, course_id := 1, status := .dropped,
                      progress_percentage := 0, completed_at := none }],
    now := 5, nextId := 2 }

/-- Statuses of the enrollment rows after a cascade call, when it succeeded. -/
def okStatuses (r : Except Err (LessonProgress × DB)) : Option (List EnrollStatus) :=
  match r with
  | .ok (_, db') => some (db'.enrollments.map (fun e => e.status))
  | .error _ => none

/-- Counterexample to C4 as stated: completing the single lesson of a course
whose enrollment is `dropped` drives the recomputed percentage to 100 and the
cascade rewrites the status to `completed` — a dropped → completed
transition. -/
theorem cascade_status_cex :
    dbC4.enrollments.map (fun e => e.status) = [EnrollStatus.dropped] ∧
    okStatuses (markLessonComplete 1 1 dbC4) = some [EnrollStatus.completed] := by
  refine ⟨rfl, ?_⟩
  norm_num [markLessonComplete, updateCourseProgress, upsertProgress, cascadePct,
    completedLessonCount, totalLessonCount, applyEnrollUpdate, okStatuses, dbC4,
    List.find?, List.filter]

/-- C4 (amended): the cascade rewrites an enrollment's status to `completed`
exactly when the row matches (student, course) and the recomputed percentage
equals 100 — regardless of the row's previous status, `dropped` included —
and leaves the status unchanged otherwise (in particular whenever the
percentage is below 100). -/
theorem cascade_status_transitions (db : DB) (sid lid : Nat) (lesson : Lesson)
    (hl : db.lessons.find? (fun l => l.id == lid) = some lesson) :
    ∃ db', updateCourseProgress sid lid db = .ok db' ∧
      db'.enrollments.map (fun e => e.status) =
        db.enrollments.map (fun e =>
          if (e.student_id = sid ∧ e.course_id = lesson.course_id) ∧
              cascadePct db.lessonProgress db.lessons sid lesson.course_id = 100
          then EnrollStatus.completed else e.status) := by
  unfold updateCourseProgress
  rw [hl]
  refine ⟨_, rfl, ?_⟩
  show (db.enrollments.map _).map _ = _
  rw [List.map_map]
  apply List.map_congr_left
  intro e hme
  by_cases h1 : e.student_id = sid ∧ e.course_id = lesson.course_id
  · have hb : (e.student_id == sid && e.course_id == lesson.course_id) = true := by
      simpa using h1
    by_cases h2 : cascadePct db.lessonProgress db.lessons sid lesson.course_id = 100
    · simp [applyEnrollUpdate, hb, h1, h2]
    · simp [applyEnrollUpdate, hb, h1, h2]
  · have hb : (e.student_id == sid && e.course_id == lesson.course_id) = false := by
      simpa using h1
    simp [applyEnrollUpdate, hb, h1]

/-- A database like `dbC4` but whose lesson is already completed, so a
cascade run recomputes 100% against the dropped enrollment. -/
def dbC4b : DB :=
  { users := [{ id := 1, role := .student }], tests := [], questions := [],
    testAttempts := [],
    lessons := [{ id := 1, course_id := 1 }],
    lessonProgress := [{ id := 1, student_id := 1, lesson_id := 1,
                         is_completed := true, completed_at := some 4 }],
    enrollments := [{ id := 1, student_id := 1, course_id := 1, status := .dropped,
                      progress_percentage := 0, completed_at := none }],
    now := 5, nextId := 2 }

/-- Witness for C4 (amended): running the cascade on `dbC4b` succeeds and the
status list is rewritten according to the match-and-100% rule. -/
theorem cascade_status_transitions_witness :
    dbC4b.lessons.find? (fun l => l.id == 1) = some { id := 1, course_id := 1 } ∧
    ∃ db', updateCourseProgress 1 1 dbC4b = .ok db' ∧
      db'.enrollments.map (fun e => e.status) =
        dbC4b.enrollments.map (fun e =>
          if (e.student_id = 1 ∧ e.course_id = Lesson.course_id { id := 1, course_id := 1 }) ∧
              cascadePct dbC4b.lessonProgress dbC4b.lessons 1
                (Lesson.course_id { id := 1, course_id := 1 }) = 100
          then EnrollStatus.completed else e.status) :=
  ⟨rfl, cascade_status_transitions dbC4b 1 1 { id := 1, course_id := 1 } rfl⟩

/-! ## C1: the attempt cap -/

theorem create_ok_state (tid sid : Nat) (db : DB) (a : TestAttempt) (db' : DB)
    (h : createTestAttempt tid sid db = .ok (a, db')) :
    db'.tests = db.tests ∧ db'.users = db.users ∧
    db'.testAttempts = db.testAttempts ++ [a] ∧
    a.test_id = tid ∧ a.student_id = sid := by
  unfold createTestAttempt at h
  split at h
  · cases h
  · split at h
    · cases h
    · split at h
      · cases h
      · simp only [Except.ok.injEq, Prod.mk.injEq] at h
        obtain ⟨ha, hdb⟩ := h
        rw [← hdb, ← ha]
        exact ⟨rfl, rfl, rfl, rfl, rfl⟩

theorem create_ok_count (tid sid : Nat) (db : DB) (a : TestAttempt) (db' : DB) (t : Test)
    (ht : db.tests.find? (fun x => x.id == tid) = some t)
    (h : createTestAttempt tid sid db = .ok (a, db')) :
    attemptsCount tid sid db < t.max_attempts := by
  unfold createTestAttempt at h
  simp only [ht] at h
  cases hu : db.users.find? (fun u => u.id == sid && u.role == Role.student) with
  | none => simp only [hu] at h; cases h
  | some u =>
    simp only [hu] at h
    by_cases hle : t.max_attempts ≤ attemptsCount tid sid db
    · rw [if_pos hle] at h; cases h
    · omega

theorem createRun_tests (c1 c2 : Nat) (db : DB) : (createRun c1 c2 db).tests = db.tests := by
  unfold createRun
  cases hres : createTestAttempt c1 c2 db with
  | error e => rfl
  | ok p => exact (create_ok_state c1 c2 db p.1 p.2 (by rw [hres])).1

theorem createRun_users (c1 c2 : Nat) (db : DB) : (createRun c1 c2 db).users = db.users := by
  unfold createRun
  cases hres : createTestAttempt c1 c2 db with
  | error e => rfl
  | ok p => exact (create_ok_state c1 c2 db p.1 p.2 (by rw [hres])).2.1

theorem runStarts_tests (calls : List (Nat × Nat)) (db : DB) :
    (runStarts calls db).tests = db.tests := by
  induction calls generalizing db with
  | nil => rfl
  | cons c rest ih => rw [runStarts, ih, createRun_tests]

theorem runStarts_users (calls : List (Nat × Nat)) (db : DB) :
    (runStarts calls db).users = db.users := by
  induction calls generalizing db with
  | nil => rfl
  | cons c rest ih => rw [runStarts, ih, createRun_users]

theorem createRun_count_le (tid sid c1 c2 : Nat) (db : DB) (t : Test)
    (ht : db.tests.find? (fun x => x.id == tid) = some t)
    (h : attemptsCount tid sid db ≤ t.max_attempts) :
    attemptsCount tid sid (createRun c1 c2 db) ≤ t.max_attempts := by
  unfold createRun
  cases hres : createTestAttempt c1 c2 db with
  | error e => exact h
  | ok p =>
    obtain ⟨a, db'⟩ := p
    show attemptsCount tid sid db' ≤ t.max_attempts
    obtain ⟨-, -, hta, haT, haS⟩ := create_ok_state c1 c2 db a db' hres
    by_cases hpair : a.test_id = tid ∧ a.student_id = sid
    · have hc1 : c1 = tid := by rw [← haT]; exact hpair.1
      have hc2 : c2 = sid := by rw [← haS]; exact hpair.2
      subst hc1; subst hc2
      have hlt := create_ok_count c1 c2 db a db' t ht hres
      have hcount : attemptsCount c1 c2 db' = attemptsCount c1 c2 db + 1 := by
        unfold attemptsCount
        rw [hta, List.filter_append, List.length_append]
        simp [hpair.1, hpair.2]
      omega
    · have hcount : attemptsCount tid sid db' = attemptsCount tid sid db := by
        unfold attemptsCount
        rw [hta, List.filter_append, List.length_append]
        have hb : (a.test_id == tid && a.student_id == sid) = false := by
          simpa using hpair
        simp [List.filter_cons, hb]
      omega

theorem runStarts_count_le (calls : List (Nat × Nat)) (tid sid : Nat) (db : DB) (t : Test)
    (ht : db.tests.find? (fun x => x.id == tid) = some t)
    (h : attemptsCount tid sid db ≤ t.max_attempts) :
    attemptsCount tid sid (runStarts calls db) ≤ t.max_attempts := by
  induction calls generalizing db with
  | nil => exact h
  | cons c rest ih =>
    rw [runStarts]
    exact ih (createRun c.1 c.2 db)
      (by rw [createRun_tests]; exact ht)
      (createRun_count_le tid sid c.1 c.2 db t ht h)

/-- C1: starting from a state satisfying the cap for a (student, test) pair,
no sequence of `createTestAttempt` calls ever pushes the number of attempt
rows for that pair above `test.max_attempts`; and once the count has reached
`max_attempts`, a further call for that pair (the student still existing in
the student role) always fails with `LimitExceeded`. -/
theorem attempt_cap (calls : List (Nat × Nat)) (db0 : DB) (tid sid : Nat) (t : Test)
    (ht : db0.tests.find? (fun x => x.id == tid) = some t)
    (hstu : (db0.users.find? (fun u => u.id == sid && u.role == Role.student)).isSome = true)
    (h0 : attemptsCount tid sid db0 ≤ t.max_attempts) :
    attemptsCount tid sid (runStarts calls db0) ≤ t.max_attempts ∧
    (attemptsCount tid sid (runStarts calls db0) = t.max_attempts →
      createTestAttempt tid sid (runStarts calls db0) = .error Err.LimitExceeded) := by
  refine ⟨runStarts_count_le calls tid sid db0 t ht h0, ?_⟩
  intro hfull
  have ht1 : (runStarts calls db0).tests.find? (fun x => x.id == tid) = some t := by
    rw [runStarts_tests]; exact ht
  have hstu1 : ((runStarts calls db0).users.find?
      (fun u => u.id == sid && u.role == Role.student)).isSome = true := by
    rw [runStarts_users]; exact hstu
  obtain ⟨u, hu⟩ := Option.isSome_iff_exists.mp hstu1
  unfold createTestAttempt
  simp only [ht1, hu]
  rw [if_pos (by omega)]

/-- A database with a `max_attempts = 1` test and a student who has not
attempted it yet. -/
def dbC1 : DB :=
  { users := [{ id := 1, role := .student }],
    tests := [{ id := 1, course_id := 1, max_attempts := 1, passing_score := 70 }],
    questions := [], testAttempts := [], lessons := [], lessonProgress := [],
    enrollments := [], now := 0, nextId := 1 }

/-- Witness for C1: two start calls against a `max_attempts = 1` test leave at
most one row, and a call at the cap fails with `LimitExceeded`. -/
theorem attempt_cap_witness :
    dbC1.tests.find? (fun x => x.id == 1) =
      some { id := 1, course_id := 1, max_attempts := 1, passing_score := 70 } ∧
    (dbC1.users.find? (fun u => u.id == 1 && u.role == Role.student)).isSome = true ∧
    attemptsCount 1 1 dbC1 ≤ 1 ∧
    (attemptsCount 1 1 (runStarts [(1, 1), (1, 1)] dbC1) ≤ 1 ∧
      (attemptsCount 1 1 (runStarts [(1, 1), (1, 1)] dbC1) = 1 →
        createTestAttempt 1 1 (runStarts [(1, 1), (1, 1)] dbC1) = .error Err.LimitExceeded)) :=
  ⟨rfl, rfl, by decide,
    attempt_cap [(1, 1), (1, 1)] dbC1 1 1
      { id := 1, course_id := 1, max_attempts := 1, passing_score := 70 } rfl rfl (by decide)⟩

/-! ## C2: grading correctness -/

/-- The spec's grading formula, stated directly over ℚ:
`score = 100 × (Σ points of correctly answered questions) / (Σ points of all questions)`
(for comparison against the score the code computes). -/
def specScore (qs : List Question) (am : AnswerMap) : ℚ :=
  100 * (((qs.filter (questionCorrect am)).map (fun q => (q.points : ℚ))).sum /
    ((qs.map (fun q => (q.points : ℚ))).sum))

theorem computeScore_eq_specScore (qs : List Question) (am : AnswerMap) :
    computeScore qs am = specScore qs am := by
  have hcast1 : (((qs.map (fun q => q.points)).sum : ℕ) : ℚ) =
      (qs.map (fun q => (q.points : ℚ))).sum := by
    rw [Nat.cast_list_sum (β := ℚ), List.map_map]; rfl
  have hcast2 : ((((qs.filter (questionCorrect am)).map (fun q => q.points)).sum : ℕ) : ℚ) =
      ((qs.filter (questionCorrect am)).map (fun q => (q.points : ℚ))).sum := by
    rw [Nat.cast_list_sum (β := ℚ), List.map_map]; rfl
  unfold computeScore specScore totalPoints earnedPoints
  by_cases hpos : 0 < (qs.map (fun q => q.points)).sum
  · rw [if_pos hpos, ← hcast1, ← hcast2]
    ring
  · rw [if_neg hpos]
    have h0 : (qs.map (fun q => q.points)).sum = 0 := by omega
    rw [← hcast1, h0]
    norm_num

theorem earnedPoints_le_totalPoints (qs : List Question) (am : AnswerMap) :
    earnedPoints qs am ≤ totalPoints qs :=
  List.Sublist.sum_le_sum
    (List.Sublist.map (fun q => q.points) (List.filter_sublist qs)) (by simp)

theorem computeScore_nonneg (qs : List Question) (am : AnswerMap) :
    0 ≤ computeScore qs am := by
  unfold computeScore
  by_cases hpos : 0 < totalPoints qs
  · rw [if_pos hpos]; positivity
  · rw [if_neg hpos]

theorem computeScore_le_100 (qs : List Question) (am : AnswerMap) :
    computeScore qs am ≤ 100 := by
  unfold computeScore
  by_cases hpos : 0 < totalPoints qs
  · rw [if_pos hpos]
    have he := earnedPoints_le_totalPoints qs am
    have h1 : ((earnedPoints qs am : ℕ) : ℚ) ≤ ((totalPoints qs : ℕ) : ℚ) := by
      exact_mod_cast he
    have ht : (0 : ℚ) < ((totalPoints qs : ℕ) : ℚ) := by exact_mod_cast hpos
    have hds : ((earnedPoints qs am : ℕ) : ℚ) / ((totalPoints qs : ℕ) : ℚ) ≤ 1 :=
      (div_le_one ht).mpr h1
    linarith
  · rw [if_neg hpos]; norm_num

/-- C2: on a non-empty question set, a successful submission stores
`score = 100 × (Σ points of correctly answered questions) / (Σ points of all
questions)` and `is_passed = (score ≥ passing_score)`; a question absent from
the submitted map earns no credit and raises no error; and the score lies in
`[0, 100]`. -/
theorem submit_grading_correct (db : DB) (aid : Nat) (am : AnswerMap)
    (a : TestAttempt) (t : Test)
    (ha : db.testAttempts.find? (fun x => x.id == aid) = some a)
    (hc : a.completed_at = none)
    (ht : db.tests.find? (fun x => x.id == a.test_id) = some t)
    (hq : db.questions.filter (fun q => q.test_id == a.test_id) ≠ []) :
    ∃ a' db', submitTestAttempt aid am db = .ok (a', db') ∧
      a'.score = some (specScore (db.questions.filter (fun q => q.test_id == a.test_id)) am) ∧
      a'.is_passed = some (decide (t.passing_score ≤
        specScore (db.questions.filter (fun q => q.test_id == a.test_id)) am)) ∧
      0 ≤ specScore (db.questions.filter (fun q => q.test_id == a.test_id)) am ∧
      specScore (db.questions.filter (fun q => q.test_id == a.test_id)) am ≤ 100 ∧
      (∀ q ∈ db.questions.filter (fun q => q.test_id == a.test_id),
        lookupAnswer am q = none → questionCorrect am q = false) := by
  have hqe : (db.questions.filter (fun q => q.test_id == a.test_id)).isEmpty = false := by
    cases hql : (db.questions.filter (fun q => q.test_id == a.test_id)).isEmpty
    · rfl
    · exact absurd (List.isEmpty_iff.mp hql) hq
  unfold submitTestAttempt
  simp only [ha, hc, Option.isSome_none, Bool.false_eq_true, if_false, ht, hqe]
  refine ⟨_, _, rfl, ?_, ?_, ?_, ?_, ?_⟩
  · show some (computeScore (db.questions.filter (fun q => q.test_id == a.test_id)) am) = _
    rw [computeScore_eq_specScore]
  · show some (decide (t.passing_score ≤
      computeScore (db.questions.filter (fun q => q.test_id == a.test_id)) am)) = _
    rw [computeScore_eq_specScore]
  · rw [← computeScore_eq_specScore]
    exact computeScore_nonneg _ am
  · rw [← computeScore_eq_specScore]
    exact computeScore_le_100 _ am
  · intro q hqin hnone
    unfold questionCorrect
    rw [hnone]

/-- A two-question test fixture: `"4"` worth 10 points and `"true"` worth 10
points, passing score 70. -/
def qC2a : Question := { id := 1, test_id := 1, correct_answer := "4", points := 10 }

def qC2b : Question := { id := 2, test_id := 1, correct_answer := "true", points := 10 }

def attC2 : TestAttempt :=
  { id := 1, test_id := 1, student_id := 1, score := none, answers := [],
    started_at := 0, completed_at := none, is_passed := none }

def tC2 : Test := { id := 1, course_id := 1, max_attempts := 3, passing_score := 70 }

def dbC2 : DB :=
  { users := [{ id := 1, role := .student }], tests := [tC2],
    questions := [qC2a, qC2b], testAttempts := [attC2], lessons := [],
    lessonProgress := [], enrollments := [], now := 7, nextId := 2 }

/-- Witness for C2: submitting answers to the in-progress attempt of the
two-question test succeeds with the spec's score formula, pass flag, bounds
and missing-answer behaviour. -/
theorem submit_grading_correct_witness :
    dbC2.testAttempts.find? (fun x => x.id == 1) = some attC2 ∧
    attC2.completed_at = none ∧
    dbC2.tests.find? (fun x => x.id == attC2.test_id) = some tC2 ∧
    dbC2.questions.filter (fun q => q.test_id == attC2.test_id) ≠ [] ∧
    (∃ a' db', submitTestAttempt 1 [("1", " 4 "), ("2", "TRUE")] dbC2 = .ok (a', db') ∧
      a'.score = some (specScore
        (dbC2.questions.filter (fun q => q.test_id == attC2.test_id))
        [("1", " 4 "), ("2", "TRUE")]) ∧
      a'.is_passed = some (decide (tC2.passing_score ≤ specScore
        (dbC2.questions.filter (fun q => q.test_id == attC2.test_id))
        [("1", " 4 "), ("2", "TRUE")])) ∧
      0 ≤ specScore (dbC2.questions.filter (fun q => q.test_id == attC2.test_id))
        [("1", " 4 "), ("2", "TRUE")] ∧
      specScore (dbC2.questions.filter (fun q => q.test_id == attC2.test_id))
        [("1", " 4 "), ("2", "TRUE")] ≤ 100 ∧
      (∀ q ∈ dbC2.questions.filter (fun q => q.test_id == attC2.test_id),
        lookupAnswer [("1", " 4 "), ("2", "TRUE")] q = none →
          questionCorrect [("1", " 4 "), ("2", "TRUE")] q = false)) :=
  ⟨rfl, rfl, rfl, by decide,
    submit_grading_correct dbC2 1 [("1", " 4 "), ("2", "TRUE")] attC2 tC2 rfl rfl rfl
      (by decide)⟩

/-! ## C8: invariance of grading under normalization -/

theorem jsToLowerChar_toNat_of_upper (c : Char) (h : 65 ≤ c.toNat ∧ c.toNat ≤ 90) :
    (jsToLowerChar c).toNat = c.toNat + 32 := by
  unfold jsToLowerChar
  rw [dif_pos h]
  rfl

theorem jsToLowerChar_eq_of_not_upper (c : Char) (h : ¬ (65 ≤ c.toNat ∧ c.toNat ≤ 90)) :
    jsToLowerChar c = c := by
  unfold jsToLowerChar
  rw [dif_neg h]

theorem jsToLowerChar_idem (c : Char) :
    jsToLowerChar (jsToLowerChar c) = jsToLowerChar c := by
  by_cases h : 65 ≤ c.toNat ∧ c.toNat ≤ 90
  · apply jsToLowerChar_eq_of_not_upper
    rw [jsToLowerChar_toNat_of_upper c h]
    omega
  · rw [jsToLowerChar_eq_of_not_upper c h, jsToLowerChar_eq_of_not_upper c h]

theorem char_eq_iff_toNat (c d : Char) : c = d ↔ c.toNat = d.toNat :=
  ⟨fun h => by rw [h], fun h => Char.ext (UInt32.toNat.inj h)⟩

theorem isWs_toNat (c : Char) :
    isWs c = true ↔ (c.toNat = 32 ∨ c.toNat = 9 ∨ c.toNat = 10 ∨ c.toNat = 13) := by
  unfold isWs
  simp only [Bool.or_eq_true, beq_iff_eq]
  rw [char_eq_iff_toNat c ' ', char_eq_iff_toNat c '\t', char_eq_iff_toNat c '\n',
    char_eq_iff_toNat c '\r']
  rw [show (' ').toNat = 32 from rfl, show ('\t').toNat = 9 from rfl,
    show ('\n').toNat = 10 from rfl, show ('\r').toNat = 13 from rfl]
  tauto

theorem isWs_jsToLowerChar (c : Char) : isWs (jsToLowerChar c) = isWs c := by
  by_cases h : 65 ≤ c.toNat ∧ c.toNat ≤ 90
  · have hlow : isWs (jsToLowerChar c) = false := by
      cases hw : isWs (jsToLowerChar c)
      · rfl
      · have := (isWs_toNat (jsToLowerChar c)).mp hw
        rw [jsToLowerChar_toNat_of_upper c h] at this
        omega
    have hup : isWs c = false := by
      cases hw : isWs c
      · rfl
      · have := (isWs_toNat c).mp hw
        omega
    rw [hlow, hup]
  · rw [jsToLowerChar_eq_of_not_upper c h]

theorem dropWhile_head_not (p : Char → Bool) (l : List Char) (a : Char) (t : List Char)
    (h : l.dropWhile p = a :: t) : p a = false := by
  induction l with
  | nil => cases h
  | cons b m ih =>
    rw [List.dropWhile_cons] at h
    cases hpb : p b
    · rw [hpb] at h
      simp only [Bool.false_eq_true, if_false] at h
      obtain ⟨rfl, -⟩ := List.cons.injEq b m a t ▸ h
      exact hpb
    · rw [hpb] at h
      simp only [if_true] at h
      exact ih h

theorem dropWhile_eq_self_of_head (p : Char → Bool) (l : List Char)
    (h : ∀ a t, l = a :: t → p a = false) : l.dropWhile p = l := by
  cases l with
  | nil => rfl
  | cons b m =>
    rw [List.dropWhile_cons, h b m rfl]
    simp

theorem getLast?_dropWhile (p : Char → Bool) (l : List Char)
    (h : l.dropWhile p ≠ []) : (l.dropWhile p).getLast? = l.getLast? := by
  obtain ⟨t, ht⟩ := List.dropWhile_suffix (l := l) p
  conv_rhs => rw [← ht]
  exact (List.getLast?_append_of_ne_nil t h).symm

theorem trimChars_eq_self (x : List Char)
    (hh : ∀ a t, x = a :: t → isWs a = false)
    (hl : ∀ a t, x.reverse = a :: t → isWs a = false) :
    trimChars x = x := by
  unfold trimChars
  rw [dropWhile_eq_self_of_head isWs x hh, dropWhile_eq_self_of_head isWs x.reverse hl]
  exact List.reverse_reverse x

theorem trimChars_idem (l : List Char) : trimChars (trimChars l) = trimChars l := by
  apply trimChars_eq_self
  · intro a t h
    have ha : (trimChars l).head? = some a := by rw [h]; rfl
    unfold trimChars at ha
    rw [List.head?_reverse] at ha
    have hne : (l.dropWhile isWs).reverse.dropWhile isWs ≠ [] := by
      intro hnil
      rw [hnil] at ha
      cases ha
    rw [getLast?_dropWhile isWs (l.dropWhile isWs).reverse hne,
      List.getLast?_reverse] at ha
    cases hu : l.dropWhile isWs with
    | nil => rw [hu] at ha; cases ha
    | cons b m =>
      rw [hu] at ha
      have hab : b = a := by simpa using ha
      rw [← hab]
      exact dropWhile_head_not isWs l b m hu
  · intro a t h
    unfold trimChars at h
    rw [List.reverse_reverse] at h
    exact dropWhile_head_not isWs (l.dropWhile isWs).reverse a t h

theorem dropWhile_isWs_map_lower (l : List Char) :
    (l.map jsToLowerChar).dropWhile isWs = (l.dropWhile isWs).map jsToLowerChar := by
  rw [List.dropWhile_map]
  have hp : (isWs ∘ jsToLowerChar) = isWs := funext (fun c => isWs_jsToLowerChar c)
  rw [hp]

theorem trimChars_map_lower (l : List Char) :
    trimChars (l.map jsToLowerChar) = (trimChars l).map jsToLowerChar := by
  unfold trimChars
  rw [dropWhile_isWs_map_lower, ← List.map_reverse, dropWhile_isWs_map_lower,
    ← List.map_reverse]

theorem jsToLower_idem (s : String) : jsToLower (jsToLower s) = jsToLower s := by
  unfold jsToLower
  refine congrArg String.mk ?_
  show (s.data.map jsToLowerChar).map jsToLowerChar = s.data.map jsToLowerChar
  rw [List.map_map]
  exact List.map_congr_left (fun c _ => jsToLowerChar_idem c)

theorem jsTrim_idem (s : String) : jsTrim (jsTrim s) = jsTrim s := by
  unfold jsTrim
  exact congrArg String.mk (trimChars_idem s.data)

theorem jsTrim_jsToLower_comm (s : String) :
    jsTrim (jsToLower s) = jsToLower (jsTrim s) := by
  unfold jsTrim jsToLower
  exact congrArg String.mk (trimChars_map_lower s.data)

theorem jsNormalize_idem (s : String) : jsNormalize (jsNormalize s) = jsNormalize s := by
  unfold jsNormalize
  rw [jsTrim_jsToLower_comm, jsTrim_idem, jsToLower_idem]

/-- A question whose correct answer is a single space (trims to empty). -/
def qC8 : Question := { id := 1, test_id := 1, correct_answer := " ", points := 1 }

/-- Counterexample to C8 as stated: against `correct_answer = " "`, the
submission `" "` earns credit but its trimmed, case-folded form `""` does
not — grading is *not* invariant under normalization for whitespace-only
strings. -/
theorem grading_normalization_cex :
    questionCorrect [("1", " ")] qC8 = true ∧
    jsNormalize " " = "" ∧
    questionCorrect [("1", "")] qC8 = false :=
  ⟨rfl, rfl, rfl⟩

/-- C8 (amended): grading is invariant under trimming and case-folding of
the submitted string whenever its normalized form is non-empty (exact
normalized match, no partial credit); a whitespace-only submission, whose
normalized form is empty, is the one exception — it is compared as-is and
can earn credit exactly when the correct answer also normalizes to empty,
while the empty string itself never earns credit. -/
theorem grading_normalization_invariant (q : Question) (s : String)
    (h : jsNormalize s ≠ "") :
    questionCorrect [(toString q.id, s)] q =
      questionCorrect [(toString q.id, jsNormalize s)] q := by
  have hs : s ≠ "" := fun hemp => h (by rw [hemp]; rfl)
  unfold questionCorrect lookupAnswer
  simp [hs, h, jsNormalize_idem]

/-- A question with correct answer `"4"`. -/
def qC8w : Question := { id := 1, test_id := 1, correct_answer := "4", points := 1 }

/-- Witness for C8 (amended): `"  4  "` (normalized form `"4"`, non-empty)
is graded exactly like its normalized form. -/
theorem grading_normalization_invariant_witness :
    jsNormalize "  4  " ≠ "" ∧
    questionCorrect [(toString qC8w.id, "  4  ")] qC8w =
      questionCorrect [(toString qC8w.id, jsNormalize "  4  ")] qC8w :=
  ⟨by decide, grading_normalization_invariant qC8w "  4  " (by decide)⟩

/-! ## C6: cascade completeness -/

theorem updateCourseProgress_ok (sid lid : Nat) (db : DB) (lesson : Lesson)
    (hl : db.lessons.find? (fun l => l.id == lid) = some lesson) :
    updateCourseProgress sid lid db = .ok { db with enrollments :=
      (db.enrollments.map (applyEnrollUpdate sid lesson.course_id
        (cascadePct db.lessonProgress db.lessons sid lesson.course_id) db.now)) } := by
  unfold updateCourseProgress
  rw [hl]

theorem markLessonComplete_ok (sid lid : Nat) (db : DB) (lesson : Lesson)
    (hl : db.lessons.find? (fun l => l.id == lid) = some lesson) :
    markLessonComplete sid lid db = .ok ((upsertProgress sid lid db).1,
      { (upsertProgress sid lid db).2 with enrollments :=
        (((upsertProgress sid lid db).2).enrollments.map
          (applyEnrollUpdate sid lesson.course_id
            (cascadePct ((upsertProgress sid lid db).2).lessonProgress
              db.lessons sid lesson.course_id)
            db.now)) }) := by
  unfold markLessonComplete
  simp only [hl]
  rw [updateCourseProgress_ok sid lid ((upsertProgress sid lid db).2) lesson
    (by rw [upsertProgress_lessons]; exact hl)]
  rw [upsertProgress_lessons, upsertProgress_now]

theorem applyEnrollUpdate_student_id (sid cid : Nat) (P : ℚ) (nw : Nat) (e : Enrollment) :
    (applyEnrollUpdate sid cid P nw e).student_id = e.student_id := by
  unfold applyEnrollUpdate
  split_ifs <;> rfl

theorem applyEnrollUpdate_course_id (sid cid : Nat) (P : ℚ) (nw : Nat) (e : Enrollment) :
    (applyEnrollUpdate sid cid P nw e).course_id = e.course_id := by
  unfold applyEnrollUpdate
  split_ifs <;> rfl

theorem applyEnrollUpdate_pct (sid cid : Nat) (P : ℚ) (nw : Nat) (e : Enrollment) :
    (applyEnrollUpdate sid cid P nw e).progress_percentage =
      if (e.student_id == sid && e.course_id == cid) = true then P
      else e.progress_percentage := by
  unfold applyEnrollUpdate
  split_ifs <;> rfl

/-- C6: a successful `markLessonComplete` stores, on every enrollment row of
the (student, course) pair, `progress_percentage` = completed lessons /
total lessons × 100 computed over the resulting state; and when the
completed count equals the (positive) total — the last uncompleted lesson
was just completed — it also sets `status = completed` and a non-null
`completed_at`. -/
theorem cascade_completeness (db : DB) (sid lid : Nat) (lesson : Lesson)
    (hl : db.lessons.find? (fun l => l.id == lid) = some lesson) :
    ∃ lp db', markLessonComplete sid lid db = .ok (lp, db') ∧
      0 < totalLessonCount db'.lessons lesson.course_id ∧
      ∀ e' ∈ db'.enrollments, e'.student_id = sid → e'.course_id = lesson.course_id →
        e'.progress_percentage =
          (completedLessonCount db'.lessonProgress db'.lessons sid lesson.course_id : ℚ) /
            (totalLessonCount db'.lessons lesson.course_id : ℚ) * 100 ∧
        (completedLessonCount db'.lessonProgress db'.lessons sid lesson.course_id =
            totalLessonCount db'.lessons lesson.course_id →
          e'.progress_percentage = 100 ∧ e'.status = EnrollStatus.completed ∧
            e'.completed_at = some db.now) := by
  have hmem : lesson ∈ db.lessons := List.mem_of_find?_eq_some hl
  have htot : 0 < totalLessonCount db.lessons lesson.course_id := by
    unfold totalLessonCount
    have hmf : lesson ∈ db.lessons.filter (fun l => l.course_id == lesson.course_id) := by
      rw [List.mem_filter]
      exact ⟨hmem, by simp⟩
    exact List.length_pos.mpr (List.ne_nil_of_mem hmf)
  rw [markLessonComplete_ok sid lid db lesson hl]
  refine ⟨_, _, rfl, ?_, ?_⟩
  · show 0 < totalLessonCount ((upsertProgress sid lid db).2).lessons lesson.course_id
    rw [upsertProgress_lessons]
    exact htot
  intro e' hmem' hsid hcid
  have hmm : e' ∈ ((upsertProgress sid lid db).2).enrollments.map
      (applyEnrollUpdate sid lesson.course_id
        (cascadePct ((upsertProgress sid lid db).2).lessonProgress
          db.lessons sid lesson.course_id) db.now) := hmem'
  obtain ⟨e, he_mem, rfl⟩ := List.mem_map.mp hmm
  have hsid' : e.student_id = sid := by rw [← applyEnrollUpdate_student_id]; exact hsid
  have hcid' : e.course_id = lesson.course_id := by
    rw [← applyEnrollUpdate_course_id]; exact hcid
  have hb : (e.student_id == sid && e.course_id == lesson.course_id) = true := by
    simp [hsid', hcid']
  have hlessons : ((upsertProgress sid lid db).2).lessons = db.lessons :=
    upsertProgress_lessons sid lid db
  set P := cascadePct ((upsertProgress sid lid db).2).lessonProgress
    db.lessons sid lesson.course_id with hP
  have hPformula : P =
      (completedLessonCount ((upsertProgress sid lid db).2).lessonProgress
        db.lessons sid lesson.course_id : ℚ) /
      (totalLessonCount db.lessons lesson.course_id : ℚ) * 100 := by
    rw [hP]
    unfold cascadePct
    rw [if_pos htot]
  have hpct : (applyEnrollUpdate sid lesson.course_id P db.now e).progress_percentage = P := by
    rw [applyEnrollUpdate_pct, if_pos hb]
  constructor
  · rw [hpct]
    show P = (completedLessonCount _ _ sid lesson.course_id : ℚ) /
      (totalLessonCount _ lesson.course_id : ℚ) * 100
    rw [hlessons]
    exact hPformula
  · intro hfull
    rw [hlessons] at hfull
    have htotne : ((totalLessonCount db.lessons lesson.course_id : Nat) : ℚ) ≠ 0 := by
      exact_mod_cast Nat.pos_iff_ne_zero.mp htot
    have hP100 : P = 100 := by
      rw [hPformula, hfull, div_self htotne, one_mul]
    have happ : applyEnrollUpdate sid lesson.course_id P db.now e =
        { e with progress_percentage := P, status := .completed,
                 completed_at := some db.now } := by
      unfold applyEnrollUpdate
      rw [if_pos hb, if_pos hP100]
    rw [happ]
    exact ⟨hP100, rfl, rfl⟩

/-- A two-lesson course with lesson 1 already completed: lesson 2 is the last
uncompleted lesson, and the enrollment stands at 50%. -/
def dbC6 : DB :=
  { users := [{ id := 1, role := .student }], tests := [], questions := [],
    testAttempts := [],
    lessons := [{ id := 1, course_id := 1 }, { id := 2, course_id := 1 }],
    lessonProgress := [{ id := 1, student_id := 1, lesson_id := 1,
                         is_completed := true, completed_at := some 2 }],
    enrollments := [{ id := 1, student_id := 1, course_id := 1, status := .active,
                      progress_percentage := 50, completed_at := none }],
    now := 9, nextId := 2 }

/-- Witness for C6: completing lesson 2 of `dbC6` (the last uncompleted one)
succeeds, and the enrollment row obeys the percentage formula and the
completion rule. -/
theorem cascade_completeness_witness :
    dbC6.lessons.find? (fun l => l.id == 2) = some { id := 2, course_id := 1 } ∧
    (∃ lp db', markLessonComplete 1 2 dbC6 = .ok (lp, db') ∧
      0 < totalLessonCount db'.lessons (Lesson.course_id { id := 2, course_id := 1 }) ∧
      ∀ e' ∈ db'.enrollments, e'.student_id = 1 →
        e'.course_id = Lesson.course_id { id := 2, course_id := 1 } →
        e'.progress_percentage =
          (completedLessonCount db'.lessonProgress db'.lessons 1
            (Lesson.course_id { id := 2, course_id := 1 }) : ℚ) /
            (totalLessonCount db'.lessons (Lesson.course_id { id := 2, course_id := 1 }) : ℚ) * 100 ∧
        (completedLessonCount db'.lessonProgress db'.lessons 1
            (Lesson.course_id { id := 2, course_id := 1 }) =
            totalLessonCount db'.lessons (Lesson.course_id { id := 2, course_id := 1 }) →
          e'.progress_percentage = 100 ∧ e'.status = EnrollStatus.completed ∧
            e'.completed_at = some dbC6.now)) :=
  ⟨rfl, cascade_completeness dbC6 1 2 { id := 2, course_id := 1 } rfl⟩

/-! ## C7: idempotence and per-pair uniqueness of lesson progress -/

/-- Number of `lesson_progress` rows for one (student, lesson) pair. -/
def pairCount (rows : List LessonProgress) (sid lid : Nat) : Nat :=
  (rows.filter (fun p => p.student_id == sid && p.lesson_id == lid)).length

/-- The per-pair uniqueness invariant on the `lesson_progress` table. -/
def atMostOnePerPair (rows : List LessonProgress) : Prop :=
  ∀ sid lid : Nat, pairCount rows sid lid ≤ 1

theorem upsert_rows_of_found (sid lid : Nat) (db : DB) (p : LessonProgress)
    (h : db.lessonProgress.find? (fun q => q.student_id == sid && q.lesson_id == lid) = some p) :
    ((upsertProgress sid lid db).2).lessonProgress =
      db.lessonProgress.map (fun q =>
        if q.student_id == sid && q.lesson_id == lid then
          { q with is_completed := true, completed_at := some db.now }
        else q) ∧
    (upsertProgress sid lid db).1 =
      { p with is_completed := true, completed_at := some db.now } := by
  unfold upsertProgress
  rw [h]
  exact ⟨rfl, rfl⟩

theorem upsert_rows_of_none (sid lid : Nat) (db : DB)
    (h : db.lessonProgress.find? (fun q => q.student_id == sid && q.lesson_id == lid) = none) :
    ((upsertProgress sid lid db).2).lessonProgress =
      db.lessonProgress ++ [(upsertProgress sid lid db).1] ∧
    (upsertProgress sid lid db).1 =
      { id := db.nextId, student_id := sid, lesson_id := lid, is_completed := true, completed_at := some db.now } := by
  unfold upsertProgress
  rw [h]
  exact ⟨rfl, rfl⟩

theorem pairCount_map_upd (rows : List LessonProgress) (sid lid s l nw : Nat) :
    pairCount (rows.map (fun q =>
      if q.student_id == sid && q.lesson_id == lid then
        { q with is_completed := true, completed_at := some nw }
      else q)) s l = pairCount rows s l := by
  unfold pairCount
  rw [List.filter_map, List.length_map]
  congr 1
  apply List.filter_congr
  intro q _
  by_cases hc : (q.student_id == sid && q.lesson_id == lid) = true
  · simp [Function.comp, hc]
  · simp [Function.comp, hc]

theorem eq_of_mem_of_length_le_one {α : Type} (l : List α) (hlen : l.length ≤ 1)
    (a b : α) (ha : a ∈ l) (hb : b ∈ l) : a = b := by
  cases l with
  | nil => cases ha
  | cons x t =>
    cases t with
    | nil =>
      rw [List.mem_singleton] at ha hb
      rw [ha, hb]
    | cons y t2 => simp at hlen

theorem matching_eq_found (rows : List LessonProgress) (sid lid : Nat) (p : LessonProgress)
    (hf : rows.find? (fun q => q.student_id == sid && q.lesson_id == lid) = some p)
    (hone : pairCount rows sid lid ≤ 1)
    (q : LessonProgress) (hq : q ∈ rows)
    (hqm : (q.student_id == sid && q.lesson_id == lid) = true) : q = p := by
  have h1 := List.mem_of_find?_eq_some hf
  have h2 := List.find?_some hf
  have hpmem : p ∈ rows.filter (fun q => q.student_id == sid && q.lesson_id == lid) :=
    List.mem_filter.mpr ⟨h1, h2⟩
  have hqmem : q ∈ rows.filter (fun q => q.student_id == sid && q.lesson_id == lid) :=
    List.mem_filter.mpr ⟨hq, hqm⟩
  exact eq_of_mem_of_length_le_one _ hone q p hqmem hpmem

theorem completedCount_upsert_eq (db : DB) (sid lid : Nat) (p : LessonProgress)
    (hf : db.lessonProgress.find? (fun q => q.student_id == sid && q.lesson_id == lid) = some p)
    (hcomp : p.is_completed = true)
    (hone : pairCount db.lessonProgress sid lid ≤ 1)
    (lessons : List Lesson) (cid : Nat) :
    completedLessonCount ((upsertProgress sid lid db).2).lessonProgress lessons sid cid =
      completedLessonCount db.lessonProgress lessons sid cid := by
  rw [(upsert_rows_of_found sid lid db p hf).1]
  unfold completedLessonCount
  rw [List.filter_map, List.length_map]
  congr 1
  apply List.filter_congr
  intro q hq
  by_cases hm : (q.student_id == sid && q.lesson_id == lid) = true
  · have hqp : q = p := matching_eq_found db.lessonProgress sid lid p hf hone q hq hm
    subst hqp
    simp [Function.comp, hm, hcomp]
  · simp [Function.comp, hm]

theorem upsert_amop (sid lid : Nat) (db : DB)
    (h : atMostOnePerPair db.lessonProgress) :
    atMostOnePerPair ((upsertProgress sid lid db).2).lessonProgress := by
  intro s l
  cases hf : db.lessonProgress.find? (fun q => q.student_id == sid && q.lesson_id == lid) with
  | some p =>
    rw [(upsert_rows_of_found sid lid db p hf).1, pairCount_map_upd]
    exact h s l
  | none =>
    rw [(upsert_rows_of_none sid lid db hf).1, (upsert_rows_of_none sid lid db hf).2]
    unfold pairCount
    rw [List.filter_append, List.length_append]
    by_cases hm : s = sid ∧ l = lid
    · obtain ⟨rfl, rfl⟩ := hm
      have hmain : db.lessonProgress.filter (fun p => p.student_id == s && p.lesson_id == l) = [] := by
        apply List.filter_eq_nil_iff.mpr
        intro x hx
        simpa using List.find?_eq_none.mp hf x hx
      rw [hmain]
      simp [List.length_filter_le]
    · have hnew : (sid == s && lid == l) = false := by
        simp only [Bool.and_eq_true, beq_iff_eq, Bool.eq_false_iff, ne_eq]
        intro hcon
        exact hm ⟨hcon.1.symm, hcon.2.symm⟩
      have hsingle : ([({ id := db.nextId, student_id := sid, lesson_id := lid, is_completed := true, completed_at := some db.now } : LessonProgress)].filter (fun p => p.student_id == s && p.lesson_id == l)) = [] := by
        simp [List.filter_cons, hnew]
      rw [hsingle]
      simpa using h s l

theorem completeRun_amop (sid lid : Nat) (db : DB)
    (h : atMostOnePerPair db.lessonProgress) :
    atMostOnePerPair (completeRun sid lid db).lessonProgress := by
  unfold completeRun
  cases hl : db.lessons.find? (fun l => l.id == lid) with
  | none =>
    have herr : markLessonComplete sid lid db = .error .NotFound := by
      unfold markLessonComplete
      rw [hl]
    rw [herr]
    exact h
  | some lesson =>
    rw [markLessonComplete_ok sid lid db lesson hl]
    exact upsert_amop sid lid db h

theorem runCompletes_amop (calls : List (Nat × Nat)) (db : DB)
    (h : atMostOnePerPair db.lessonProgress) :
    atMostOnePerPair (runCompletes calls db).lessonProgress := by
  induction calls generalizing db with
  | nil => exact h
  | cons c rest ih => exact ih (completeRun c.1 c.2 db) (completeRun_amop c.1 c.2 db h)

/-- C7: (a) from any state in which every (student, lesson) pair has at most
one `lesson_progress` row, any sequence of `completeLesson` calls preserves
that uniqueness; (b) completing an already-completed lesson updates the
existing row in place (same row count, returned row is the old row with
`is_completed = true` and a refreshed `completed_at`) and, when the stored
percentages satisfy the cascade's own formula, does not decrease any
enrollment's `progress_percentage`. -/
theorem cascade_idempotent (calls : List (Nat × Nat)) (db : DB) (sid lid : Nat) :
    (atMostOnePerPair db.lessonProgress →
      atMostOnePerPair (runCompletes calls db).lessonProgress) ∧
    (∀ p, db.lessonProgress.find? (fun q => q.student_id == sid && q.lesson_id == lid) = some p →
      p.is_completed = true →
      atMostOnePerPair db.lessonProgress →
      ∀ lp db2, markLessonComplete sid lid db = .ok (lp, db2) →
        db2.lessonProgress.length = db.lessonProgress.length ∧
        lp = { p with is_completed := true, completed_at := some db.now } ∧
        ∀ lesson, db.lessons.find? (fun l => l.id == lid) = some lesson →
          (∀ e ∈ db.enrollments, e.student_id = sid → e.course_id = lesson.course_id →
            e.progress_percentage =
              cascadePct db.lessonProgress db.lessons sid lesson.course_id) →
          ∀ i (h1 : i < db.enrollments.length) (h2 : i < db2.enrollments.length),
            (db.enrollments.get ⟨i, h1⟩).progress_percentage ≤
              (db2.enrollments.get ⟨i, h2⟩).progress_percentage) := by
  refine ⟨runCompletes_amop calls db, ?_⟩
  intro p hf hcomp hone lp db2 heq
  cases hl : db.lessons.find? (fun l => l.id == lid) with
  | none =>
    unfold markLessonComplete at heq
    rw [hl] at heq
    cases heq
  | some lesson =>
    rw [markLessonComplete_ok sid lid db lesson hl] at heq
    simp only [Except.ok.injEq, Prod.mk.injEq] at heq
    obtain ⟨hlp, hdb2⟩ := heq
    refine ⟨?_, ?_, ?_⟩
    · rw [← hdb2]
      show ((upsertProgress sid lid db).2).lessonProgress.length = _
      rw [(upsert_rows_of_found sid lid db p hf).1, List.length_map]
    · rw [← hlp]
      exact (upsert_rows_of_found sid lid db p hf).2
    · intro lesson2 hl2 hinv i h1 h2
      injection hl2 with hle
      subst hle
      have henr : db2.enrollments = db.enrollments.map
          (applyEnrollUpdate sid lesson.course_id
            (cascadePct ((upsertProgress sid lid db).2).lessonProgress
              db.lessons sid lesson.course_id) db.now) := by
        rw [← hdb2]
        show ((upsertProgress sid lid db).2).enrollments.map _ = _
        rw [upsertProgress_enrollments]
      have hPeq : cascadePct ((upsertProgress sid lid db).2).lessonProgress
          db.lessons sid lesson.course_id =
          cascadePct db.lessonProgress db.lessons sid lesson.course_id := by
        unfold cascadePct
        rw [completedCount_upsert_eq db sid lid p hf hcomp (hone sid lid)
          db.lessons lesson.course_id]
      have h2' : i < (db.enrollments.map
          (applyEnrollUpdate sid lesson.course_id
            (cascadePct ((upsertProgress sid lid db).2).lessonProgress
              db.lessons sid lesson.course_id) db.now)).length := by
        rw [← henr]
        exact h2
      have hget : db2.enrollments.get ⟨i, h2⟩ =
          applyEnrollUpdate sid lesson.course_id
            (cascadePct ((upsertProgress sid lid db).2).lessonProgress
              db.lessons sid lesson.course_id) db.now
            (db.enrollments.get ⟨i, h1⟩) := by
        rw [List.get_of_eq henr ⟨i, h2⟩]
        exact List.get_map _
      rw [hget, applyEnrollUpdate_pct]
      by_cases hmatch : ((db.enrollments.get ⟨i, h1⟩).student_id == sid &&
          (db.enrollments.get ⟨i, h1⟩).course_id == lesson.course_id) = true
      · rw [if_pos hmatch, hPeq]
        have he1 : (db.enrollments.get ⟨i, h1⟩).student_id = sid ∧
            (db.enrollments.get ⟨i, h1⟩).course_id = lesson.course_id := by
          simpa using hmatch
        rw [hinv (db.enrollments.get ⟨i, h1⟩) (db.enrollments.get_mem i h1) he1.1 he1.2]
      · rw [if_neg hmatch]

/-- An already-completed lesson-progress row for (student 1, lesson 1). -/
def rowC7 : LessonProgress :=
  { id := 1, student_id := 1, lesson_id := 1, is_completed := true, completed_at := some 3 }

/-- The enrollment row of `dbC7`: already completed at 100%. -/
def enrC7 : Enrollment :=
  { id := 1, student_id := 1, course_id := 1, status := .completed,
    progress_percentage := 100, completed_at := some 3 }

/-- A one-lesson course whose single lesson is already completed and whose
enrollment stands at 100% (matching the cascade's formula). -/
def dbC7 : DB :=
  { users := [{ id := 1, role := .student }], tests := [], questions := [],
    testAttempts := [],
    lessons := [{ id := 1, course_id := 1 }],
    lessonProgress := [rowC7],
    enrollments := [enrC7],
    now := 8, nextId := 2 }

/-- Witness for C7: re-completing the already-completed lesson 1 keeps one
row per pair, keeps the row count, returns the refreshed old row, and does
not decrease the enrollment percentage. -/
theorem cascade_idempotent_witness :
    atMostOnePerPair dbC7.lessonProgress ∧
    atMostOnePerPair (runCompletes [(1, 1)] dbC7).lessonProgress ∧
    dbC7.lessonProgress.find? (fun q => q.student_id == 1 && q.lesson_id == 1) = some rowC7 ∧
    rowC7.is_completed = true ∧
    ∃ lp db2, markLessonComplete 1 1 dbC7 = .ok (lp, db2) ∧
      db2.lessonProgress.length = dbC7.lessonProgress.length ∧
      lp = { rowC7 with is_completed := true, completed_at := some dbC7.now } ∧
      ∀ i (h1 : i < dbC7.enrollments.length) (h2 : i < db2.enrollments.length),
        (dbC7.enrollments.get ⟨i, h1⟩).progress_percentage ≤
          (db2.enrollments.get ⟨i, h2⟩).progress_percentage := by
  have hamop : atMostOnePerPair dbC7.lessonProgress :=
    fun s l => List.length_filter_le _ _
  have heq := markLessonComplete_ok 1 1 dbC7 { id := 1, course_id := 1 } rfl
  obtain ⟨hlen, hlp, hrest⟩ :=
    (cascade_idempotent [(1, 1)] dbC7 1 1).2 rowC7 rfl rfl hamop _ _ heq
  refine ⟨hamop, (cascade_idempotent [(1, 1)] dbC7 1 1).1 hamop, rfl, rfl,
    _, _, heq, hlen, hlp, ?_⟩
  intro i h1 h2
  apply hrest { id := 1, course_id := 1 } rfl
  intro e he hs hc
  have he0 : e = enrC7 := by
    simp only [dbC7] at he
    exact List.mem_singleton.mp he
  subst he0
  norm_num [enrC7, cascadePct, completedLessonCount, totalLessonCount, dbC7, rowC7]
